import Mathlib

set_option maxHeartbeats 1000000

/-!
Shallow embedding of the rotated planar G81 (XZXZ/ZXZX) decoder repository.

Embedded source files:

- src/rotated_planar_g81_pauli.py : RotatedPlanarG81Pauli.plaquette and the
  site-level frame updates it relies on.
- src/RotatedPlanarG81RMPSDecoder.py : sample_recovery, label, and the tensor
  network creator TNC (h_node_value, v_node_value, create_q_node).
- src/rotated_planar_g81_code.py : RotatedPlanarXZCode constructor validation.

The lattice model and the generic Pauli operator algebra live in the external
qecsim library, which the design document declares an external collaborator.
Definitions coming from there are marked as modelled from the spec; they follow
the spec text and the lattice diagrams in the repository docstrings.
-/

/-- Single-qubit Pauli label as used by the Python code (characters I, X, Y, Z). -/
inductive Pauli where
  | I
  | X
  | Y
  | Z
  deriving DecidableEq, Repr

/-- Binary symplectic form of a single Pauli: the pair (x-bit, z-bit). -/
def pauliToBsf : Pauli → Bool × Bool
  | .I => (false, false)
  | .X => (true, false)
  | .Y => (true, true)
  | .Z => (false, true)

/-- Inverse of pauliToBsf, mirroring qecsim paulitools.bsf_to_pauli on one site. -/
def bsfToPauli : Bool × Bool → Pauli
  | (false, false) => .I
  | (true, false) => .X
  | (true, true) => .Y
  | (false, true) => .Z

/-- Componentwise xor: addition modulo 2 in each binary symplectic component. -/
def bxor (a b : Bool × Bool) : Bool × Bool := (xor a.1 b.1, xor a.2 b.2)

/-- Multiply a bsf Pauli by a 0/1 flag, as the Python code multiplies a leg value
into a bsf row vector. -/
def scaleBsf (b : Bool) (p : Bool × Bool) : Bool × Bool := if b then p else (false, false)

/-- Symplectic product of two single-site Paulis: true iff they anticommute. -/
def sprod (a b : Bool × Bool) : Bool := xor (a.1 && b.2) (a.2 && b.1)

/-- The rotated planar G81 code lattice, determined by its number of rows and
columns (both equal to the distance). -/
structure RPG81Code where
  distance : ℕ
  deriving DecidableEq, Repr

/-- Modelled from the spec: qecsim RotatedPlanarCode.site_bounds, the maximal
site coordinates (max_site_x, max_site_y) of a distance x distance lattice with
the origin at the lower left qubit. -/
def siteBounds (c : RPG81Code) : ℤ × ℤ := ((c.distance : ℤ) - 1, (c.distance : ℤ) - 1)

/-- Modelled from the spec: qecsim RotatedPlanarCode.is_in_site_bounds. -/
def isInSiteBounds (c : RPG81Code) (i : ℤ × ℤ) : Bool :=
  decide (0 ≤ i.1 ∧ i.1 ≤ (siteBounds c).1 ∧ 0 ≤ i.2 ∧ i.2 ≤ (siteBounds c).2)

/-- Modelled from the spec: qecsim RotatedPlanarCode.is_in_plaquette_bounds.
Plaquette indices are the lower left corner site of the plaquette, so plaquettes
touching the lattice run from -1 to max_site in each coordinate, as in the
stabilizer plaquette diagram of the repository code class docstring. -/
def isInPlaquetteBounds (c : RPG81Code) (i : ℤ × ℤ) : Bool :=
  decide (-1 ≤ i.1 ∧ i.1 ≤ (siteBounds c).1 ∧ -1 ≤ i.2 ∧ i.2 ≤ (siteBounds c).2)

/-- Modelled from the spec: qecsim RotatedPlanarCode.is_z_plaquette, the
ZX/ZX-type test (x - y) % 2 == 0 stated in the repository code class docstring. -/
def isZPlaquette (i : ℤ × ℤ) : Bool := (i.1 - i.2) % 2 == 0

/-- Modelled from the spec: qecsim RotatedPlanarCode.is_virtual_plaquette.
ZX/ZX-type plaquettes are virtual on the left and right lattice boundaries and
XZ/XZ-type plaquettes on the bottom and top boundaries; virtual plaquettes are
not stabilizers. -/
def isVirtualPlaquette (c : RPG81Code) (i : ℤ × ℤ) : Bool :=
  (isZPlaquette i && decide (i.1 = -1 ∨ i.1 = (siteBounds c).1)) ||
    (!isZPlaquette i && decide (i.2 = -1 ∨ i.2 = (siteBounds c).2))

/-- Integer interval from -1 up to max site coordinate, used to enumerate
plaquette indices. -/
def plaqCoordRange (c : RPG81Code) : List ℤ :=
  (List.range (c.distance + 1)).map (fun i : ℕ => (i : ℤ) - 1)

/-- Modelled from the spec: the stabilizer plaquette indices of the lattice,
the in-bounds non-virtual plaquettes (qecsim RotatedPlanarCode stabilizers). -/
def stabilizerIndices (c : RPG81Code) : List (ℤ × ℤ) :=
  ((plaqCoordRange c).foldr
    (fun x acc => ((plaqCoordRange c).map (fun y => (x, y))) ++ acc) []).filter
    (fun q => isInPlaquetteBounds c q && !isVirtualPlaquette c q)

/-- All qubit site indices of the lattice. -/
def allSites (c : RPG81Code) : List (ℤ × ℤ) :=
  ((List.range c.distance).map (fun i : ℕ => (i : ℤ))).foldr
    (fun x acc => (((List.range c.distance).map (fun i : ℕ => (i : ℤ))).map (fun y => (x, y))) ++ acc) []

/-- A Pauli frame: an assignment of a bsf Pauli to every site index. -/
abbrev Frame : Type := ℤ × ℤ → Bool × Bool

/-- The identity frame produced by code.new_pauli(). -/
def blankFrame : Frame := fun _ => (false, false)

/-- Modelled from the spec: qecsim RotatedPlanarPauli.site restricted to one
index. Applies the single Pauli operator p at site t; applying operators on
sites that lie outside the lattice has no effect. -/
def siteFlip (c : RPG81Code) (p : Pauli) (t : ℤ × ℤ) (f : Frame) : Frame :=
  if isInSiteBounds c t then
    fun s => if s = t then bxor (f s) (pauliToBsf p) else f s
  else f

/-- RotatedPlanarG81Pauli.plaquette (src/rotated_planar_g81_pauli.py lines 20-58):
apply a plaquette operator at the given index. For a ZX/ZX-type plaquette
(abs(x - y) % 2 == 0) the code applies Z at the SW and NW corners and X at the
NE and SE corners; for an XZ/XZ-type plaquette it applies X at SW and NW and Z
at NE and SE. Out-of-bounds plaquette indices leave the frame unchanged. -/
def plaquette (c : RPG81Code) (idx : ℤ × ℤ) (f : Frame) : Frame :=
  let x := idx.1
  let y := idx.2
  if isInPlaquetteBounds c idx then
    if (x - y).natAbs % 2 == 0 then
      siteFlip c .X (x + 1, y)
        (siteFlip c .X (x + 1, y + 1) (siteFlip c .Z (x, y + 1) (siteFlip c .Z (x, y) f)))
    else
      siteFlip c .Z (x + 1, y)
        (siteFlip c .Z (x + 1, y + 1) (siteFlip c .X (x, y + 1) (siteFlip c .X (x, y) f)))
  else f

/-- Body of the loop of RotatedPlanarG81RMPSDecoder.sample_recovery
(src/RotatedPlanarG81RMPSDecoder.py lines 145-183) for one violated plaquette:
for a plaquette on the even diagonal ((plaq_x - plaq_y) % 2 == 0) an alternating
X/Z path runs left to the boundary, along row plaq_y when plaq_y is even and
along row plaq_y + 1 when plaq_y is odd; otherwise a constant Z path runs down
to the boundary in column plaq_x (plaq_x even) or plaq_x + 1 (plaq_x odd). -/
def applyPath (c : RPG81Code) (p : ℤ × ℤ) (f : Frame) : Frame :=
  let px := p.1
  let py := p.2
  if (px - py) % 2 = 0 then
    if py % 2 = 0 then
      (((List.range (px + 1).toNat).map (fun i : ℕ => (i : ℤ))).reverse).foldl
        (fun g x =>
          if x % 2 = 0 then siteFlip c .X (x, py) g
          else siteFlip c .Z (x, py) g) f
    else
      (((List.range (px + 1).toNat).map (fun i : ℕ => (i : ℤ))).reverse).foldl
        (fun g x =>
          if x % 2 = 0 then siteFlip c .X (x, py + 1) g
          else siteFlip c .Z (x, py + 1) g) f
  else
    if px % 2 = 0 then
      ((List.range (py + 1).toNat).map (fun i : ℕ => (i : ℤ))).foldl
        (fun g y => siteFlip c .Z (px, y) g) f
    else
      ((List.range (py + 1).toNat).map (fun i : ℕ => (i : ℤ))).foldl
        (fun g y => siteFlip c .Z (px + 1, y) g) f

/-- RotatedPlanarG81RMPSDecoder.sample_recovery
(src/RotatedPlanarG81RMPSDecoder.py lines 126-186): starting from a blank
frame, apply the boundary path of every violated plaquette of the syndrome. -/
def sample_recovery (c : RPG81Code) (plaquetteIndices : List (ℤ × ℤ)) : Frame :=
  plaquetteIndices.foldl (fun f p => applyPath c p f) blankFrame

/-- Modelled from the spec: the stabilizer operator of a plaquette is obtained
by applying the plaquette operator to a blank frame (qecsim
StabilizerCode.stabilizers builds each row as new_pauli().plaquette(i).to_bsf()). -/
def stabOp (c : RPG81Code) (q : ℤ × ℤ) : Frame := plaquette c q blankFrame

/-- Modelled from the spec: measuring one stabilizer against a frame is the
binary symplectic product of the frame with the stabilizer operator, summed
over all lattice sites (spec glossary: frames compose by xor on the binary
symplectic encoding and a syndrome bit records anticommutation). -/
def measureStab (c : RPG81Code) (q : ℤ × ℤ) (f : Frame) : Bool :=
  (allSites c).foldl (fun acc s => xor acc (sprod (f s) (stabOp c q s))) false

/-- Plaquette operator following the stabilizer diagram in the docstring of
RotatedPlanarXZCode (src/rotated_planar_g81_code.py lines 46-63). In that
diagram the side on which the Z operators act depends on the parity of the
plaquette row y, not on the plaquette type parity (x - y) % 2 used by
RotatedPlanarG81Pauli.plaquette; the two rules differ exactly on the
plaquettes with odd x. -/
def plaquettePerDocDiagram (c : RPG81Code) (idx : ℤ × ℤ) (f : Frame) : Frame :=
  let x := idx.1
  let y := idx.2
  if isInPlaquetteBounds c idx then
    if y % 2 = 0 then
      siteFlip c .X (x + 1, y)
        (siteFlip c .X (x + 1, y + 1) (siteFlip c .Z (x, y + 1) (siteFlip c .Z (x, y) f)))
    else
      siteFlip c .Z (x + 1, y)
        (siteFlip c .Z (x + 1, y + 1) (siteFlip c .X (x, y + 1) (siteFlip c .X (x, y) f)))
  else f

/-- Measurement of one docstring-diagram stabilizer against a frame. -/
def measureStabDocDiagram (c : RPG81Code) (q : ℤ × ℤ) (f : Frame) : Bool :=
  (allSites c).foldl
    (fun acc s => xor acc (sprod (f s) (plaquettePerDocDiagram c q blankFrame s))) false

/-- Parameter value passed to the RotatedPlanarXZCode constructor: either a
value usable as a Python int, or not (operator.index then raises TypeError). -/
inductive DistanceParam where
  | int (n : ℤ)
  | nonInt
  deriving DecidableEq, Repr

/-- Outcome of running the constructor validation. -/
inductive InitResult where
  | ok
  | valueError
  | typeError
  deriving DecidableEq, Repr

/-- RotatedPlanarXZCode constructor validation
(src/rotated_planar_g81_code.py lines 66-83): operator.index raises TypeError
for a parameter not usable as an int (re-raised as TypeError); an int below
MIN_SIZE (3, per the base class of the rotated planar code family and the
docstring raises-clauses) raises ValueError, as does an even int; otherwise
construction proceeds. -/
def rotatedPlanarXZCodeInit : DistanceParam → InitResult
  | .nonInt => .typeError
  | .int n => if n < 3 then .valueError else if n % 2 = 0 then .valueError else .ok

/-- One decoder configuration value as it occurs in the label parameter list of
RotatedPlanarG81RMPSDecoder: chi is None or an int, mode is a string, tol is
None or a number. -/
inductive PyVal where
  | pint (n : Option ℕ)
  | pstr (s : String)
  | pnum (q : Option ℚ)
  deriving DecidableEq, Repr

/-- Python truthiness of a configuration value: None, 0, 0.0 and the empty
string are falsy, everything else is truthy. -/
def pyTruthy : PyVal → Bool
  | .pint none => false
  | .pint (some n) => n != 0
  | .pstr s => s != ""
  | .pnum none => false
  | .pnum (some q) => q != 0

/-- Python default string formatting of a configuration value. -/
def pyFormat : PyVal → String
  | .pint none => "None"
  | .pint (some n) => toString n
  | .pstr s => s
  | .pnum none => "None"
  | .pnum (some q) => toString q

/-- The params list of RotatedPlanarG81RMPSDecoder.label
(src/RotatedPlanarG81RMPSDecoder.py line 192). -/
def labelParams (chi : Option ℕ) (mode : String) (tol : Option ℚ) : List (String × PyVal) :=
  [("chi", .pint chi), ("mode", .pstr mode), ("tol", .pnum tol)]

/-- RotatedPlanarG81RMPSDecoder.label (src/RotatedPlanarG81RMPSDecoder.py
lines 189-193): joins key=value pairs, keeping only params with truthy values. -/
def decoderLabel (chi : Option ℕ) (mode : String) (tol : Option ℚ) : String :=
  "Rotated planar G18 (XZXZ/ZXZX) RMPS (" ++
    String.intercalate ", "
      (((labelParams chi mode tol).filter (fun e => pyTruthy e.2)).map
        (fun e => e.1 ++ "=" ++ pyFormat e.2)) ++ ")"

/-- Look up the probability of a Pauli in the distribution tuple
(Pr(I), Pr(X), Pr(Y), Pr(Z)), as op_to_pr = dict(zip(paulis, prob_dist)). -/
def opToPr (pd : ℚ × ℚ × ℚ × ℚ) : Pauli → ℚ
  | .I => pd.1
  | .X => pd.2.1
  | .Y => pd.2.2.1
  | .Z => pd.2.2.2

/-- TNC.h_node_value (src/RotatedPlanarG81RMPSDecoder.py lines 201-215):
net operator f + n*Z + e*X + s*Z + w*X (even column) or
f + n*X + e*Z + s*X + w*Z (odd column), each component modulo 2, looked up in
the probability distribution. -/
def h_node_value (pd : ℚ × ℚ × ℚ × ℚ) (f : Pauli) (n e s w : Bool)
    (even_column : Bool) : ℚ :=
  let fb := pauliToBsf f
  let xb := pauliToBsf .X
  let zb := pauliToBsf .Z
  let op :=
    if even_column then
      bxor (bxor (bxor (bxor fb (scaleBsf n zb)) (scaleBsf e xb)) (scaleBsf s zb)) (scaleBsf w xb)
    else
      bxor (bxor (bxor (bxor fb (scaleBsf n xb)) (scaleBsf e zb)) (scaleBsf s xb)) (scaleBsf w zb)
  opToPr pd (bsfToPauli op)

/-- TNC.v_node_value (src/RotatedPlanarG81RMPSDecoder.py lines 218-222): the
order of the nesw legs is rotated relative to h_node_value. -/
def v_node_value (pd : ℚ × ℚ × ℚ × ℚ) (f : Pauli) (n e s w : Bool)
    (even_column : Bool) : ℚ :=
  h_node_value pd f e s w n even_column

/-- Swap the X and Z roles of a bsf Pauli (exchanging the two components). -/
def swapXZ (p : Bool × Bool) : Bool × Bool := (p.2, p.1)

/-- Stated per the spec value rule: the leg Paulis contributed across the
north, east, south and west bonds of one sublattice type, as a function of the
column parity: Z on the vertical legs and X on the horizontal legs for even
columns, and with the roles exchanged for odd columns. -/
def hLegPaulis (even_column : Bool) :
    (Bool × Bool) × (Bool × Bool) × (Bool × Bool) × (Bool × Bool) :=
  if even_column then (pauliToBsf .Z, pauliToBsf .X, pauliToBsf .Z, pauliToBsf .X)
  else (pauliToBsf .X, pauliToBsf .Z, pauliToBsf .X, pauliToBsf .Z)

/-- Stated per the spec value rule: the other sublattice type contributes the
same leg pattern with the X and Z roles swapped. -/
def vLegPaulis (even_column : Bool) :
    (Bool × Bool) × (Bool × Bool) × (Bool × Bool) × (Bool × Bool) :=
  let h := hLegPaulis even_column
  (swapXZ h.1, swapXZ h.2.1, swapXZ h.2.2.1, swapXZ h.2.2.2)

/-- Stated per the spec value rule: the net Pauli of a node equals the frame
value combined with the xor-sum of the active legs, each active leg
contributing its pattern Pauli, modulo 2 in each symplectic component. -/
def netPauliBits (fb : Bool × Bool) (n e s w : Bool)
    (legs : (Bool × Bool) × (Bool × Bool) × (Bool × Bool) × (Bool × Bool)) : Bool × Bool :=
  bxor fb (bxor (scaleBsf n legs.1)
    (bxor (scaleBsf e legs.2.1) (bxor (scaleBsf s legs.2.2.1) (scaleBsf w legs.2.2.2))))

/-- Compass direction tag for boundary and corner nodes. -/
inductive Dir where
  | n
  | ne
  | e
  | se
  | s
  | sw
  | w
  | nw
  deriving DecidableEq, Repr, Fintype

/-- TNC.create_q_node shape bookkeeping (src/RotatedPlanarG81RMPSDecoder.py
lines 225-352). Returns the q-node shape (n, e, s, w) together with the shape
of the combined node obtained by absorbing the four delta nodes, which is
(w3 * n2, n3 * e2, e3 * s2, s3 * w2) for delta shapes n = (n1, n2, n3) and so
on, exactly as computed on line 347 of the source. Requesting a v-node in the
SW corner raises a ValueError. -/
def create_q_node_shapes (h_node : Bool) (even_column : Bool) (dir : Option Dir) :
    Except String ((ℕ × ℕ × ℕ × ℕ) × (ℕ × ℕ × ℕ × ℕ)) := do
  let bulkDeltas : (ℕ × ℕ × ℕ) × (ℕ × ℕ × ℕ) × (ℕ × ℕ × ℕ) × (ℕ × ℕ × ℕ) :=
    if even_column then ((2, 2, 2), (2, 1, 2), (2, 2, 2), (2, 1, 2))
    else ((2, 2, 1), (2, 2, 2), (2, 2, 1), (2, 2, 2))
  let (ns0, es0, ss0, ws0) := bulkDeltas
  let (qs, ns, es, ss, ws) ←
    if h_node then
      match dir with
      | none => pure ((2, 2, 2, 2), ns0, es0, ss0, ws0)
      | some .n => pure ((2, 2, 2, 1), (2, 1, 2), es0, ss0, (1, 1, 1))
      | some .ne => pure ((1, 2, 2, 1), (1, 1, 1), (2, 1, 2), ss0, (1, 1, 1))
      | some .e => pure ((1, 2, 2, 2), (1, 1, 1), (2, 1, 2), ss0, ws0)
      | some .se => pure ((1, 1, 2, 2), (1, 1, 1), (1, 1, 1), (2, 1, 2), ws0)
      | some .s => pure ((2, 1, 2, 2), ns0, (1, 1, 1), (2, 1, 2), ws0)
      | some .sw => pure ((2, 1, 1, 2), ns0, (1, 1, 1), (1, 1, 1), (2, 1, 2))
      | some .w => pure ((2, 2, 1, 2), ns0, es0, (1, 1, 1), (2, 1, 2))
      | some .nw => pure ((2, 2, 1, 1), (2, 1, 2), es0, (1, 1, 1), (1, 1, 1))
    else
      match dir with
      | none => pure ((2, 2, 2, 2), ns0, es0, ss0, ws0)
      | some .n => pure ((1, 2, 2, 2), (1, 1, 1), es0, ss0, (2, 2, 1))
      | some .ne => pure ((1, 1, 2, 2), (1, 1, 1), (1, 1, 1), ss0, (2, 2, 1))
      | some .e => pure ((2, 1, 2, 2), (2, 2, 1), (1, 1, 1), ss0, ws0)
      | some .se => pure ((2, 1, 1, 2), (2, 2, 1), (1, 1, 1), (1, 1, 1), ws0)
      | some .s => pure ((2, 2, 1, 2), ns0, (2, 2, 1), (1, 1, 1), ws0)
      | some .sw => Except.error "Cannot have v-node in SW corner of lattice."
      | some .w => pure ((2, 2, 2, 1), ns0, es0, (2, 2, 1), (1, 1, 1))
      | some .nw => pure ((1, 2, 2, 1), (1, 1, 1), es0, (2, 2, 1), (1, 1, 1))
  pure (qs, (ws.2.2 * ns.2.1, ns.2.2 * es.2.1, es.2.2 * ss.2.1, ss.2.2 * ws.2.1))

/-- Combined node shape of a create_q_node result; (0, 0, 0, 0) for the error
case, which never has the shape of a real node. -/
def combinedShapeOf : Except String ((ℕ × ℕ × ℕ × ℕ) × (ℕ × ℕ × ℕ × ℕ)) → ℕ × ℕ × ℕ × ℕ
  | .ok r => r.2
  | .error _ => (0, 0, 0, 0)

/-- The compass direction tags for which the north leg faces outside the lattice. -/
def northOutside : Dir → Bool
  | .n | .ne | .nw => true
  | _ => false

/-- The compass direction tags for which the east leg faces outside the lattice. -/
def eastOutside : Dir → Bool
  | .ne | .e | .se => true
  | _ => false

/-- The compass direction tags for which the south leg faces outside the lattice. -/
def southOutside : Dir → Bool
  | .se | .s | .sw => true
  | _ => false

/-- The compass direction tags for which the west leg faces outside the lattice. -/
def westOutside : Dir → Bool
  | .sw | .w | .nw => true
  | _ => false

/-- A memoization cache in the style of functools.lru_cache: most recently used
entries first, optionally bounded by a maximal size. -/
structure LruCache (α β : Type) where
  entries : List (α × β)
  maxsize : Option ℕ

/-- Look a key up in the cache entry list. -/
def cacheFind {α β : Type} [DecidableEq α] : List (α × β) → α → Option β
  | [], _ => none
  | e :: es, a => if e.1 = a then some e.2 else cacheFind es a

/-- One memoized call: on a hit return the cached value and move the entry to
the front; on a miss compute the value, store it in front and trim the cache to
its maximal size. -/
def lruCall {α β : Type} [DecidableEq α] (fn : α → β) (c : LruCache α β) (a : α) :
    β × LruCache α β :=
  match cacheFind c.entries a with
  | some b => (b, ⟨(a, b) :: c.entries.filter (fun e => !(decide (e.1 = a))), c.maxsize⟩)
  | none =>
      let b := fn a
      let es := (a, b) :: c.entries
      (b, ⟨match c.maxsize with | some m => es.take m | none => es, c.maxsize⟩)

/-- Run a sequence of memoized calls, threading the cache through. -/
def lruRun {α β : Type} [DecidableEq α] (fn : α → β) : LruCache α β → List α → List β
  | _, [] => []
  | c, a :: as =>
      let r := lruCall fn c a
      r.1 :: lruRun fn r.2 as

/-- Cache correctness invariant: every stored value is the value of the
memoized function at its key. -/
def CacheConsistent {α β : Type} (fn : α → β) (c : LruCache α β) : Prop :=
  ∀ e ∈ c.entries, e.2 = fn e.1

/-- Argument tuple of the memoized TNC.h_node_value and TNC.v_node_value. -/
structure HNodeArgs where
  prob_dist : ℚ × ℚ × ℚ × ℚ
  f : Pauli
  n : Bool
  e : Bool
  s : Bool
  w : Bool
  even_column : Bool
  deriving DecidableEq

/-- Argument tuple of the memoized TNC.create_q_node shape computation. -/
structure QNodeArgs where
  h_node : Bool
  even_column : Bool
  dir : Option Dir
  deriving DecidableEq

/-- h_node_value on its memoization key tuple. -/
def h_node_value_call (t : HNodeArgs) : ℚ :=
  h_node_value t.prob_dist t.f t.n t.e t.s t.w t.even_column

/-- v_node_value on its memoization key tuple. -/
def v_node_value_call (t : HNodeArgs) : ℚ :=
  v_node_value t.prob_dist t.f t.n t.e t.s t.w t.even_column

/-- create_q_node shape computation on its memoization key tuple. -/
def create_q_node_call (t : QNodeArgs) :
    Except String ((ℕ × ℕ × ℕ × ℕ) × (ℕ × ℕ × ℕ × ℕ)) :=
  create_q_node_shapes t.h_node t.even_column t.dir

/-- The contribution of one guarded site flip at a queried site: the bsf Pauli
if the query hits the flipped site and the site is inside the lattice, zero
otherwise. -/
def flipContrib (c : RPG81Code) (p : Pauli) (t s : ℤ × ℤ) : Bool × Bool :=
  if s = t ∧ isInSiteBounds c t = true then pauliToBsf p else (false, false)

/-- The total contribution of the four guarded corner flips of a plaquette
operator at a queried site, in the order the source applies them. -/
def plaquetteCornerBits (c : RPG81Code) (idx s : ℤ × ℤ) : Bool × Bool :=
  let x := idx.1
  let y := idx.2
  if (x - y).natAbs % 2 == 0 then
    bxor (flipContrib c .Z (x, y) s) (bxor (flipContrib c .Z (x, y + 1) s)
      (bxor (flipContrib c .X (x + 1, y + 1) s) (flipContrib c .X (x + 1, y) s)))
  else
    bxor (flipContrib c .X (x, y) s) (bxor (flipContrib c .X (x, y + 1) s)
      (bxor (flipContrib c .Z (x + 1, y + 1) s) (flipContrib c .Z (x + 1, y) s)))

/-- The plaquette flavor classification used by the branches of
sample_recovery, whose comments call an even-row plaquette a ZX/ZX plaquette
and an odd-row plaquette an XZ/XZ plaquette; this matches the row-parity
convention of the code class docstring diagram. -/
def evenRowPlaquette (p : ℤ × ℤ) : Bool := p.2 % 2 == 0

/-- The row of the boundary chain of an even-diagonal violated plaquette:
along the bottom edge of the plaquette for the even-row flavor and along its
top edge for the odd-row flavor. -/
def chainRow (p : ℤ × ℤ) : ℤ := if evenRowPlaquette p then p.2 else p.2 + 1

/-- Claim C6: for the empty syndrome (zero violated plaquettes), the recovery
path builder returns the identity Pauli frame: every site holds identity. -/
theorem C6_empty_syndrome_identity (c : RPG81Code) (s : ℤ × ℤ) :
    sample_recovery c [] s = (false, false) := rfl


/-- Claim C1 (failure witness): at distance 3, for the syndrome consisting of
the single violated plaquette (0, 0), the frame returned by sample_recovery
does not reproduce the syndrome when measured against every stabilizer
plaquette of the lattice: the stabilizer at (-1, 0) measures 1 against the
frame although (-1, 0) is not part of the syndrome. -/
theorem C1_roundtrip_violation_d3 :
    ((0, 0) : ℤ × ℤ) ∈ stabilizerIndices ⟨3⟩ ∧
    ((-1, 0) : ℤ × ℤ) ∈ stabilizerIndices ⟨3⟩ ∧
    measureStab ⟨3⟩ (0, 0) (sample_recovery ⟨3⟩ [(0, 0)]) = true ∧
    measureStab ⟨3⟩ (-1, 0) (sample_recovery ⟨3⟩ [(0, 0)]) = true ∧
    ((-1, 0) : ℤ × ℤ) ∉ ([(0, 0)] : List (ℤ × ℤ)) := by decide

/-- Supporting evidence: the plaquette operators as implemented do not even
form a commuting stabilizer set. At distance 3 the stabilizer operators at
(0, 0) and (1, -1) anticommute, contradicting the stabilizer code structure
the classes document. -/
theorem plaquette_stabilizers_not_commuting_d3 :
    ((0, 0) : ℤ × ℤ) ∈ stabilizerIndices ⟨3⟩ ∧
    ((1, -1) : ℤ × ℤ) ∈ stabilizerIndices ⟨3⟩ ∧
    measureStab ⟨3⟩ (0, 0) (stabOp ⟨3⟩ (1, -1)) = true := by decide

/-- Supporting evidence: under the docstring-diagram plaquette convention the
recovery paths of sample_recovery reproduce every singleton syndrome at
distance 3 exactly, and the diagram stabilizers mutually commute. The
implemented plaquette rule, not the path builder, is the slip. -/
theorem sample_recovery_matches_doc_diagram_d3 :
    (∀ p ∈ stabilizerIndices ⟨3⟩, ∀ q ∈ stabilizerIndices ⟨3⟩,
      measureStabDocDiagram ⟨3⟩ q (sample_recovery ⟨3⟩ [p]) = decide (q = p)) ∧
    (∀ p ∈ stabilizerIndices ⟨3⟩, ∀ q ∈ stabilizerIndices ⟨3⟩,
      measureStabDocDiagram ⟨3⟩ q (plaquettePerDocDiagram ⟨3⟩ p blankFrame) = false) := by
  decide

/-- Claim C8: construction fails with a value error for an integer distance
smaller than 3 or even, fails with a type error for a non-integer parameter,
and succeeds for every odd integer distance at least 3. -/
theorem C8_init_validation :
    (∀ n : ℤ, n < 3 ∨ n % 2 = 0 → rotatedPlanarXZCodeInit (.int n) = .valueError) ∧
    (∀ n : ℤ, 3 ≤ n → n % 2 = 1 → rotatedPlanarXZCodeInit (.int n) = .ok) ∧
    rotatedPlanarXZCodeInit .nonInt = .typeError := by
  refine ⟨fun n h => ?_, fun n h3 hodd => ?_, rfl⟩
  · rcases h with h | h
    · simp [rotatedPlanarXZCodeInit, h]
    · by_cases hlt : n < 3 <;> simp [rotatedPlanarXZCodeInit, hlt, h]
  · have h0 : ¬ n < 3 := by omega
    have h2 : ¬ n % 2 = 0 := by omega
    simp [rotatedPlanarXZCodeInit, h0, h2]

/-- Witness for claim C8 at concrete inputs: distance 2 is rejected with a
value error and distance 3 is accepted. -/
theorem C8_init_validation_witness :
    ((2 : ℤ) < 3 ∨ (2 : ℤ) % 2 = 0) ∧
    rotatedPlanarXZCodeInit (.int 2) = .valueError ∧
    (3 : ℤ) ≤ 3 ∧ (3 : ℤ) % 2 = 1 ∧ rotatedPlanarXZCodeInit (.int 3) = .ok :=
  ⟨Or.inl (by decide), C8_init_validation.1 2 (Or.inl (by decide)), by decide, by decide,
    C8_init_validation.2.1 3 (by decide) (by decide)⟩

/-- Claim C10: the label keeps exactly the parameters whose value is truthy, so
with chi = 0 (and tol = 0) those entries are omitted entirely and the label does
not summarize the full configuration. -/
theorem C10_label_truthy_only :
    (∀ (chi : Option ℕ) (mode : String) (tol : Option ℚ),
      ((labelParams chi mode tol).filter (fun e => pyTruthy e.2)).map Prod.fst =
        (if pyTruthy (.pint chi) then ["chi"] else []) ++
          (if pyTruthy (.pstr mode) then ["mode"] else []) ++
          (if pyTruthy (.pnum tol) then ["tol"] else [])) ∧
    decoderLabel (some 0) "c" (some 0) = "Rotated planar G18 (XZXZ/ZXZX) RMPS (mode=c)" := by
  constructor
  · intro chi mode tol
    cases h1 : pyTruthy (.pint chi) <;> cases h2 : pyTruthy (.pstr mode) <;>
      cases h3 : pyTruthy (.pnum tol) <;> simp [labelParams, h1, h2, h3]
  · rfl

/-- Claim C2: for every distribution, frame Pauli, leg values and column
parity, the h-node tensor entry is the probability of the net Pauli obtained
from the frame and the active legs with the pattern north Z, east X, south Z,
west X (for even columns, and with X and Z exchanged for odd columns), and the
v-node entry is the probability of the net Pauli for the X/Z-swapped pattern. -/
theorem C2_node_value_rule (pd : ℚ × ℚ × ℚ × ℚ) (f : Pauli) (n e s w : Bool)
    (even_column : Bool) :
    h_node_value pd f n e s w even_column =
      opToPr pd (bsfToPauli (netPauliBits (pauliToBsf f) n e s w (hLegPaulis even_column))) ∧
    v_node_value pd f n e s w even_column =
      opToPr pd (bsfToPauli (netPauliBits (pauliToBsf f) n e s w (vLegPaulis even_column))) := by
  constructor <;>
    (cases even_column <;> cases f <;> cases n <;> cases e <;> cases s <;> cases w <;> rfl)

/-- Claim C3: for every legal combination of sublattice type, column parity and
boundary tag, create_q_node returns a combined node; in the bulk its legs have
sizes (4, 2, 4, 2) in north, east, south, west order (vertical bonds 4,
horizontal bonds 2), and for a boundary or corner tag every leg facing outside
the lattice has size 1. -/
theorem C3_q_node_shapes :
    (∀ (h_node even_column : Bool),
      (create_q_node_shapes h_node even_column none).isOk = true ∧
      combinedShapeOf (create_q_node_shapes h_node even_column none) = (4, 2, 4, 2)) ∧
    (∀ (h_node even_column : Bool) (d : Dir), h_node = true ∨ d ≠ Dir.sw →
      (create_q_node_shapes h_node even_column (some d)).isOk = true ∧
      (northOutside d = true →
        (combinedShapeOf (create_q_node_shapes h_node even_column (some d))).1 = 1) ∧
      (eastOutside d = true →
        (combinedShapeOf (create_q_node_shapes h_node even_column (some d))).2.1 = 1) ∧
      (southOutside d = true →
        (combinedShapeOf (create_q_node_shapes h_node even_column (some d))).2.2.1 = 1) ∧
      (westOutside d = true →
        (combinedShapeOf (create_q_node_shapes h_node even_column (some d))).2.2.2 = 1)) := by
  decide

/-- Witness for claim C3: the h-node on the north boundary in an even column is
legal and yields a combined node with a north leg of size 1. -/
theorem C3_q_node_shapes_witness :
    (true = true ∨ Dir.n ≠ Dir.sw) ∧
    (create_q_node_shapes true true (some Dir.n)).isOk = true ∧
    (combinedShapeOf (create_q_node_shapes true true (some Dir.n))).1 = 1 :=
  ⟨Or.inl rfl, (C3_q_node_shapes.2 true true Dir.n (Or.inl rfl)).1,
    (C3_q_node_shapes.2 true true Dir.n (Or.inl rfl)).2.1 rfl⟩

/-- Claim C4: create_q_node fails with an error exactly for the v-node in the
SW corner, and returns a node without error for every other combination of
sublattice type, column parity and boundary tag, bulk included. -/
theorem C4_sw_corner_error :
    (∀ even_column : Bool,
      create_q_node_shapes false even_column (some Dir.sw) =
        .error "Cannot have v-node in SW corner of lattice.") ∧
    (∀ (h_node even_column : Bool) (d : Option Dir), ¬(h_node = false ∧ d = some Dir.sw) →
      (create_q_node_shapes h_node even_column d).isOk = true) := by
  constructor
  · intro even_column; cases even_column <;> rfl
  · decide

/-- Witness for claim C4: the v-node bulk case is legal and returns a node. -/
theorem C4_sw_corner_error_witness :
    ¬(false = false ∧ (none : Option Dir) = some Dir.sw) ∧
    (create_q_node_shapes false true none).isOk = true :=
  ⟨by simp, C4_sw_corner_error.2 false true none (by simp)⟩

theorem cacheFind_consistent {α β : Type} [DecidableEq α] {fn : α → β}
    {L : List (α × β)} (h : ∀ e ∈ L, e.2 = fn e.1) {a : α} {b : β}
    (hf : cacheFind L a = some b) : b = fn a := by
  induction L with
  | nil => simp [cacheFind] at hf
  | cons e es ih =>
      rw [cacheFind] at hf
      by_cases he : e.1 = a
      · rw [if_pos he] at hf
        cases hf
        rw [h e (List.mem_cons_self e es), he]
      · rw [if_neg he] at hf
        exact ih (fun x hx => h x (List.mem_cons_of_mem e hx)) hf

theorem mem_of_mem_take {γ : Type} {l : List γ} {n : ℕ} {x : γ}
    (h : x ∈ l.take n) : x ∈ l := by
  induction l generalizing n with
  | nil => simp at h
  | cons y ys ih =>
      cases n with
      | zero => simp at h
      | succ m =>
          rw [List.take_succ_cons] at h
          rcases List.mem_cons.mp h with h1 | h1
          · exact h1 ▸ List.mem_cons_self y ys
          · exact List.mem_cons_of_mem y (ih h1)

theorem lruCall_consistent {α β : Type} [DecidableEq α] (fn : α → β)
    (c : LruCache α β) (a : α) (h : CacheConsistent fn c) :
    (lruCall fn c a).1 = fn a ∧ CacheConsistent fn (lruCall fn c a).2 := by
  rw [lruCall]
  cases hf : cacheFind c.entries a with
  | some b =>
      refine ⟨cacheFind_consistent h hf, ?_⟩
      intro e he
      rcases List.mem_cons.mp he with h1 | h1
      · rw [h1]
        exact cacheFind_consistent h hf
      · exact h e (List.mem_filter.mp h1).1
  | none =>
      refine ⟨rfl, ?_⟩
      intro e he
      have hmem : e ∈ (a, fn a) :: c.entries := by
        cases hm : c.maxsize with
        | none => rw [hm] at he; exact he
        | some m => rw [hm] at he; exact mem_of_mem_take he
      rcases List.mem_cons.mp hmem with h1 | h1
      · rw [h1]
      · exact h e h1

theorem lruRun_eq_map {α β : Type} [DecidableEq α] (fn : α → β)
    (c : LruCache α β) (h : CacheConsistent fn c) (as : List α) :
    lruRun fn c as = as.map fn := by
  induction as generalizing c with
  | nil => rfl
  | cons a rest ih =>
      rw [lruRun, List.map_cons]
      have hc := lruCall_consistent fn c a h
      rw [hc.1, ih (lruCall fn c a).2 hc.2]

/-- Claim C7: for every sequence of calls with discrete argument tuples, the
memoized tensor-value functions and node-construction function return exactly
the values an unmemoized recomputation returns, for any cache size bound. -/
theorem C7_memoization_pure (ms : Option ℕ) :
    (∀ calls : List HNodeArgs,
      lruRun h_node_value_call ⟨[], ms⟩ calls = calls.map h_node_value_call) ∧
    (∀ calls : List HNodeArgs,
      lruRun v_node_value_call ⟨[], ms⟩ calls = calls.map v_node_value_call) ∧
    (∀ calls : List QNodeArgs,
      lruRun create_q_node_call ⟨[], ms⟩ calls = calls.map create_q_node_call) := by
  refine ⟨fun calls => lruRun_eq_map _ ⟨[], ms⟩ ?_ calls,
    fun calls => lruRun_eq_map _ ⟨[], ms⟩ ?_ calls,
    fun calls => lruRun_eq_map _ ⟨[], ms⟩ ?_ calls⟩ <;>
  · intro e he
    simp at he

theorem bxor_zero (a : Bool × Bool) : bxor a (false, false) = a := by
  cases a
  simp [bxor]

theorem zero_bxor (a : Bool × Bool) : bxor (false, false) a = a := by
  cases a
  simp [bxor]

theorem bxor_reassoc (a g1 g2 g3 g4 : Bool × Bool) :
    bxor (bxor (bxor (bxor a g1) g2) g3) g4 =
      bxor a (bxor g1 (bxor g2 (bxor g3 g4))) := by
  cases a
  cases g1
  cases g2
  cases g3
  cases g4
  simp [bxor, Bool.xor_assoc]

theorem siteFlip_apply (c : RPG81Code) (p : Pauli) (t : ℤ × ℤ) (f : Frame) (s : ℤ × ℤ) :
    siteFlip c p t f s = bxor (f s) (flipContrib c p t s) := by
  unfold siteFlip flipContrib
  by_cases hb : isInSiteBounds c t = true
  · rw [if_pos hb]
    by_cases hs : s = t
    · rw [if_pos hs, if_pos ⟨hs, hb⟩]
    · rw [if_neg hs, if_neg (fun h => hs h.1), bxor_zero]
  · rw [if_neg hb, if_neg (fun h => hb h.2), bxor_zero]

theorem isInSiteBounds_iff (c : RPG81Code) (a b : ℤ) :
    isInSiteBounds c (a, b) = true ↔
      0 ≤ a ∧ a ≤ (c.distance : ℤ) - 1 ∧ 0 ≤ b ∧ b ≤ (c.distance : ℤ) - 1 := by
  simp [isInSiteBounds, siteBounds]

/-- Claim C9: applying the plaquette operation at an index outside the
plaquette bounds leaves the Pauli frame unchanged and returns normally, and
for an in-bounds index the frame changes exactly by the guarded flips of the
four corner sites. -/
theorem C9_plaquette_out_of_bounds (c : RPG81Code) (idx : ℤ × ℤ) (f : Frame) :
    (isInPlaquetteBounds c idx = false → plaquette c idx f = f) ∧
    (isInPlaquetteBounds c idx = true →
      ∀ s, plaquette c idx f s = bxor (f s) (plaquetteCornerBits c idx s)) := by
  constructor
  · intro h
    unfold plaquette
    rw [if_neg (by simp [h])]
  · intro h s
    unfold plaquette plaquetteCornerBits
    rw [if_pos h]
    by_cases ht : (idx.1 - idx.2).natAbs % 2 == 0
    · rw [if_pos ht, if_pos ht]
      simp only [siteFlip_apply]
      exact bxor_reassoc _ _ _ _ _
    · rw [if_neg ht, if_neg ht]
      simp only [siteFlip_apply]
      exact bxor_reassoc _ _ _ _ _

/-- Witness for claim C9: at distance 3, the out-of-bounds plaquette (5, 5) is
a no-op and the in-bounds plaquette (0, 0) flips its corner (0, 0). -/
theorem C9_plaquette_out_of_bounds_witness :
    isInPlaquetteBounds ⟨3⟩ (5, 5) = false ∧
    plaquette ⟨3⟩ (5, 5) blankFrame = blankFrame ∧
    isInPlaquetteBounds ⟨3⟩ (0, 0) = true ∧
    plaquette ⟨3⟩ (0, 0) blankFrame (0, 0) =
      bxor (blankFrame (0, 0)) (plaquetteCornerBits ⟨3⟩ (0, 0) (0, 0)) :=
  ⟨by decide, (C9_plaquette_out_of_bounds ⟨3⟩ (5, 5) blankFrame).1 (by decide), by decide,
    (C9_plaquette_out_of_bounds ⟨3⟩ (0, 0) blankFrame).2 (by decide) (0, 0)⟩

theorem chain_body_apply (c : RPG81Code) (r j : ℤ) (f : Frame) (x y : ℤ) :
    (if j % 2 = 0 then siteFlip c .X (j, r) f else siteFlip c .Z (j, r) f) (x, y) =
    if x = j ∧ y = r ∧ isInSiteBounds c (j, r) = true then
      bxor (f (x, y)) (pauliToBsf (if x % 2 = 0 then .X else .Z))
    else f (x, y) := by
  by_cases hk : j % 2 = 0
  · rw [if_pos hk, siteFlip_apply]
    unfold flipContrib
    by_cases hc : ((x, y) : ℤ × ℤ) = (j, r) ∧ isInSiteBounds c (j, r) = true
    · have hx : x = j := congrArg Prod.fst hc.1
      have hy : y = r := congrArg Prod.snd hc.1
      have hop : (x % 2 = 0) := by rw [hx]; exact hk
      rw [if_pos hc, if_pos (show x = j ∧ y = r ∧ isInSiteBounds c (j, r) = true from
        ⟨hx, hy, hc.2⟩), if_pos hop]
    · rw [if_neg hc, bxor_zero, if_neg (fun h => hc ⟨by rw [h.1, h.2.1], h.2.2⟩)]
  · rw [if_neg hk, siteFlip_apply]
    unfold flipContrib
    by_cases hc : ((x, y) : ℤ × ℤ) = (j, r) ∧ isInSiteBounds c (j, r) = true
    · have hx : x = j := congrArg Prod.fst hc.1
      have hy : y = r := congrArg Prod.snd hc.1
      have hop : ¬(x % 2 = 0) := by rw [hx]; exact hk
      rw [if_pos hc, if_pos (show x = j ∧ y = r ∧ isInSiteBounds c (j, r) = true from
        ⟨hx, hy, hc.2⟩), if_neg hop]
    · rw [if_neg hc, bxor_zero, if_neg (fun h => hc ⟨by rw [h.1, h.2.1], h.2.2⟩)]

theorem chain_foldl_apply (c : RPG81Code) (r : ℤ) (m : ℕ) (f : Frame) (x y : ℤ) :
    ((((List.range m).map (fun i : ℕ => (i : ℤ))).reverse).foldl
      (fun g z =>
        if z % 2 = 0 then siteFlip c .X (z, r) g
        else siteFlip c .Z (z, r) g) f) (x, y) =
    if y = r ∧ 0 ≤ x ∧ x < (m : ℤ) ∧ isInSiteBounds c (x, r) = true then
      bxor (f (x, y)) (pauliToBsf (if x % 2 = 0 then .X else .Z))
    else f (x, y) := by
  induction m generalizing f with
  | zero =>
      simp only [List.range_zero, List.map_nil, List.reverse_nil, List.foldl_nil]
      rw [if_neg (by rintro ⟨h1, h2, h3, h4⟩; omega)]
  | succ k ih =>
      rw [List.range_succ, List.map_append, List.reverse_append, List.map_singleton,
        List.reverse_singleton, List.singleton_append, List.foldl_cons, ih, chain_body_apply]
      by_cases hxk : x = (k : ℤ) ∧ y = r ∧ isInSiteBounds c ((k : ℤ), r) = true
      · obtain ⟨hx1, hy1, hb1⟩ := hxk
        have hbx : isInSiteBounds c (x, r) = true := by rw [hx1]; exact hb1
        rw [if_pos (show x = (k : ℤ) ∧ y = r ∧ isInSiteBounds c ((k : ℤ), r) = true from
            ⟨hx1, hy1, hb1⟩),
          if_neg (show ¬(y = r ∧ 0 ≤ x ∧ x < (k : ℤ) ∧ isInSiteBounds c (x, r) = true) from by
            rintro ⟨g1, g2, g3, g4⟩
            omega),
          if_pos (show y = r ∧ 0 ≤ x ∧ x < ((k + 1 : ℕ) : ℤ) ∧
            isInSiteBounds c (x, r) = true from ⟨hy1, by omega, by omega, hbx⟩)]
      · by_cases hlt : y = r ∧ 0 ≤ x ∧ x < (k : ℤ) ∧ isInSiteBounds c (x, r) = true
        · obtain ⟨g1, g2, g3, g4⟩ := hlt
          rw [if_pos (show y = r ∧ 0 ≤ x ∧ x < (k : ℤ) ∧ isInSiteBounds c (x, r) = true from
              ⟨g1, g2, g3, g4⟩),
            if_neg hxk,
            if_pos (show y = r ∧ 0 ≤ x ∧ x < ((k + 1 : ℕ) : ℤ) ∧
              isInSiteBounds c (x, r) = true from ⟨g1, g2, by omega, g4⟩)]
        · rw [if_neg hlt, if_neg hxk, if_neg]
          rintro ⟨h1, h2, h3, h4⟩
          by_cases hxe : x = (k : ℤ)
          · exact hxk ⟨hxe, h1, by rw [← hxe]; exact h4⟩
          · exact hlt ⟨h1, h2, by omega, h4⟩

/-- Claim C5: for a violated plaquette on the even diagonal, the recovery path
builder lays a horizontal chain of sites from the plaquette to the left
boundary, holding X on even columns and Z on odd columns, along the bottom
edge of the plaquette for the even-row flavor of plaquette and along the top
edge for the odd-row flavor; all other sites stay identity. -/
theorem C5_even_diagonal_chain (c : RPG81Code) (px py : ℤ)
    (hodd : c.distance % 2 = 1)
    (hdiag : (px - py) % 2 = 0)
    (hx0 : 0 ≤ px) (hx1 : px ≤ (c.distance : ℤ) - 2)
    (hy0 : -1 ≤ py) (hy1 : py ≤ (c.distance : ℤ) - 1) :
    ∀ x y : ℤ, sample_recovery c [(px, py)] (x, y) =
      if y = chainRow (px, py) ∧ 0 ≤ x ∧ x ≤ px then
        pauliToBsf (if x % 2 = 0 then .X else .Z)
      else (false, false) := by
  intro x y
  have hm : (((px + 1).toNat : ℤ)) = px + 1 := Int.toNat_of_nonneg (by omega)
  simp only [sample_recovery, List.foldl_cons, List.foldl_nil, applyPath]
  rw [if_pos hdiag]
  by_cases hpy : py % 2 = 0
  · have hcr : chainRow (px, py) = py := by
      simp [chainRow, evenRowPlaquette, hpy]
    rw [if_pos hpy, chain_foldl_apply, hcr]
    simp only [blankFrame, zero_bxor]
    by_cases h1 : y = py ∧ 0 ≤ x ∧ x < (((px + 1).toNat : ℕ) : ℤ) ∧
        isInSiteBounds c (x, py) = true
    · obtain ⟨g1, g2, g3, g4⟩ := h1
      rw [if_pos (show y = py ∧ 0 ≤ x ∧ x < (((px + 1).toNat : ℕ) : ℤ) ∧
          isInSiteBounds c (x, py) = true from ⟨g1, g2, g3, g4⟩),
        if_pos (show y = py ∧ 0 ≤ x ∧ x ≤ px from ⟨g1, g2, by omega⟩)]
    · rw [if_neg h1, if_neg]
      rintro ⟨hy2, hx2, hx3⟩
      exact h1 ⟨hy2, hx2, by omega,
        (isInSiteBounds_iff c x py).mpr ⟨hx2, by omega, by omega, by omega⟩⟩
  · have hcr : chainRow (px, py) = py + 1 := by
      simp [chainRow, evenRowPlaquette, hpy]
    rw [if_neg hpy, chain_foldl_apply, hcr]
    simp only [blankFrame, zero_bxor]
    by_cases h1 : y = py + 1 ∧ 0 ≤ x ∧ x < (((px + 1).toNat : ℕ) : ℤ) ∧
        isInSiteBounds c (x, py + 1) = true
    · obtain ⟨g1, g2, g3, g4⟩ := h1
      rw [if_pos (show y = py + 1 ∧ 0 ≤ x ∧ x < (((px + 1).toNat : ℕ) : ℤ) ∧
          isInSiteBounds c (x, py + 1) = true from ⟨g1, g2, g3, g4⟩),
        if_pos (show y = py + 1 ∧ 0 ≤ x ∧ x ≤ px from ⟨g1, g2, by omega⟩)]
    · rw [if_neg h1, if_neg]
      rintro ⟨hy2, hx2, hx3⟩
      exact h1 ⟨hy2, hx2, by omega,
        (isInSiteBounds_iff c x (py + 1)).mpr ⟨hx2, by omega, by omega, by omega⟩⟩

/-- Witness for claim C5: at distance 3 the violated plaquette (1, 1) lies on
the even diagonal and its chain runs along its top edge, row 2, with X at the
even site (0, 2). -/
theorem C5_even_diagonal_chain_witness :
    (RPG81Code.mk 3).distance % 2 = 1 ∧ ((1 : ℤ) - 1) % 2 = 0 ∧
    sample_recovery ⟨3⟩ [(1, 1)] (0, 2) = pauliToBsf .X := by
  refine ⟨by decide, by decide, ?_⟩
  have h := C5_even_diagonal_chain ⟨3⟩ 1 1 (by decide) (by decide) (by decide)
    (by decide) (by decide) (by decide) 0 2
  rw [h, if_pos ⟨by decide, by decide, by decide⟩, if_pos (by decide)]

